import Mathlib

/-!
Verification of the RTR server library (`lib/structs.go`, `lib/server.go`).

The development shallowly embeds:
* the wire codec for protocol data units (`Decode`, the per-type `Write`
  methods) over byte lists, with machine integers as `Nat` reduced mod
  `2 ^ w` exactly where the Go code truncates;
* the version-compatibility helper `IsCorrectPDUVersion`;
* the versioned dataset store (`ComputeDiff`, `ApplyDiff`, `AddSDsDiff`,
  `AddData`, `getSDsSerialDiff`, `getCurrentSerial`, `SetSerial`);
* the per-client handler path (`Client.checkVersion`, `Server.HandlePDU`,
  `DefaultRTREventHandler.RequestCache` / `RequestNewVersion`, `Client.SendSDs`
  and the `SendPDU` version stamping).
-/

namespace RtrVerify

/-- `FLAG_ADDED` from structs.go. -/
def FLAG_ADDED : Nat := 1

/-- `FLAG_REMOVED` from structs.go. -/
def FLAG_REMOVED : Nat := 0

/-- `messageMaxSize` from structs.go: size of the largest sensible PDU. -/
def messageMaxSize : Nat := 262168

/-- Big-endian bytes of a 16-bit value, as written by `binary.Write` of a
`uint16` (the value is the field reduced mod `2 ^ 16`, byte by byte). -/
def be16 (x : Nat) : List Nat := [x / 256 % 256, x % 256]

/-- Big-endian bytes of a 32-bit value, as written by `binary.Write` of a
`uint32`. -/
def be32 (x : Nat) : List Nat :=
  [x / 2 ^ 24 % 256, x / 2 ^ 16 % 256, x / 2 ^ 8 % 256, x % 256]

/-- `binary.BigEndian.Uint16` of the first two bytes of a list. -/
def read16 (l : List Nat) : Nat := l.getD 0 0 * 256 + l.getD 1 0

/-- `binary.BigEndian.Uint32` of the first four bytes of a list. -/
def read32 (l : List Nat) : Nat :=
  l.getD 0 0 * 2 ^ 24 + l.getD 1 0 * 2 ^ 16 + l.getD 2 0 * 2 ^ 8 + l.getD 3 0

/--
The tagged PDU values of structs.go.  The Go `netip.Prefix` carried by the
IPv4/IPv6 prefix PDUs is represented by its address bytes (`addr`, 4 or 16
bytes for a valid value) and its bit count (`pfxLen`).  `errorMsg` is the
byte string of the Go `ErrorMsg` string field.  The `aspa` variant mirrors
`PDUASPA` as used by server.go's `Client.SendData`; its wire format is not
part of structs.go.
-/
inductive PDU where
  | serialNotify (version sessionId serialNumber : Nat)
  | serialQuery (version sessionId serialNumber : Nat)
  | resetQuery (version : Nat)
  | cacheResponse (version sessionId : Nat)
  | ipv4Pfx (version flags pfxLen maxLen : Nat) (addr : List Nat) (asn : Nat)
  | ipv6Pfx (version flags pfxLen maxLen : Nat) (addr : List Nat) (asn : Nat)
  | endOfData (version sessionId serialNumber refreshInterval retryInterval expireInterval : Nat)
  | cacheReset (version : Nat)
  | routerKey (version flags : Nat) (ski : List Nat) (asn : Nat) (spki : List Nat)
  | errorReport (version errorCode : Nat) (pduCopy errorMsg : List Nat)
  | aspa (version flags afiFlags providerASCount customerASNumber : Nat)
      (providerASNumbers : List Nat)
deriving DecidableEq

/-- `GetVersion` of each PDU type. -/
def PDU.version : PDU → Nat
  | .serialNotify v _ _ => v
  | .serialQuery v _ _ => v
  | .resetQuery v => v
  | .cacheResponse v _ => v
  | .ipv4Pfx v _ _ _ _ _ => v
  | .ipv6Pfx v _ _ _ _ _ => v
  | .endOfData v _ _ _ _ _ => v
  | .cacheReset v => v
  | .routerKey v _ _ _ _ => v
  | .errorReport v _ _ _ => v
  | .aspa v _ _ _ _ _ => v

/-- `SetVersion` of each PDU type. -/
def PDU.setVersion : PDU → Nat → PDU
  | .serialNotify _ a b, v => .serialNotify v a b
  | .serialQuery _ a b, v => .serialQuery v a b
  | .resetQuery _, v => .resetQuery v
  | .cacheResponse _ a, v => .cacheResponse v a
  | .ipv4Pfx _ a b c d e, v => .ipv4Pfx v a b c d e
  | .ipv6Pfx _ a b c d e, v => .ipv6Pfx v a b c d e
  | .endOfData _ a b c d e, v => .endOfData v a b c d e
  | .cacheReset _, v => .cacheReset v
  | .routerKey _ a b c d, v => .routerKey v a b c d
  | .errorReport _ a b c, v => .errorReport v a b c
  | .aspa _ a b c d e, v => .aspa v a b c d e

/--
The `Write` method of each PDU type, producing the wire bytes.  Literal
header bytes are written as literals; `uint8`/`uint16`/`uint32` Go casts are
rendered by `% 256`, `be16`, `be32`.  `PDURouterKey.Write` silently writes
nothing when the SKI is not exactly 20 bytes.  `PDUErrorReport.Write`
NUL-terminates a non-empty message and includes the terminator in the length.
The `aspa` case is modelled from the spec (flags, AFI flags, provider count,
customer ASN, provider ASNs) since `PDUASPA.Write` is not part of structs.go.
-/
def PDU.write : PDU → List Nat
  | .serialNotify v sess serial => [v, 0] ++ be16 sess ++ be32 12 ++ be32 serial
  | .serialQuery v sess serial => [v, 1] ++ be16 sess ++ be32 12 ++ be32 serial
  | .resetQuery v => [v, 2] ++ be16 0 ++ be32 8
  | .cacheResponse v sess => [v, 3] ++ be16 sess ++ be32 8
  | .ipv4Pfx v flags pfxLen maxLen addr asn =>
      [v, 4] ++ be16 0 ++ be32 20 ++ [flags, pfxLen % 256, maxLen, 0] ++ addr ++ be32 asn
  | .ipv6Pfx v flags pfxLen maxLen addr asn =>
      [v, 6] ++ be16 0 ++ be32 32 ++ [flags, pfxLen % 256, maxLen, 0] ++ addr ++ be32 asn
  | .endOfData v sess serial r t e =>
      [v, 7] ++ be16 sess ++
        (if v = 0 then be32 12 ++ be32 serial
         else be32 24 ++ be32 serial ++ be32 r ++ be32 t ++ be32 e)
  | .cacheReset v => [v, 8] ++ be16 0 ++ be32 8
  | .routerKey v flags ski asn spki =>
      if ski.length ≠ 20 then []
      else [v, 9, flags, 0] ++ be32 (32 + spki.length) ++ ski ++ be32 asn ++ spki
  | .errorReport v code pduCopy errorMsg =>
      [v, 10] ++ be16 code ++
        be32 (12 + pduCopy.length + 4 + errorMsg.length +
          (if errorMsg ≠ [] then 1 else 0)) ++
        be32 pduCopy.length ++ pduCopy ++
        be32 (errorMsg.length + (if errorMsg ≠ [] then 1 else 0)) ++
        (if errorMsg ≠ [] then errorMsg ++ [0] else [])
  | .aspa v flags afiFlags _count customer providers =>
      [v, 11] ++ be16 0 ++ be32 (16 + 4 * providers.length) ++
        [flags, afiFlags] ++ be16 providers.length ++ be32 customer ++
        providers.flatMap be32

/-- Encoding a PDU at a protocol version: `SetVersion` then `Bytes`. -/
def encodeWithVersion (p : PDU) (v : Nat) : List Nat := (p.setVersion v).write

/--
The type-dispatch switch of `Decode` in structs.go, applied to the header
fields and the `length - 8` body bytes (`toread`), with the strict body-size
check of each type.
-/
def decodeBody (pver pduType sessionId : Nat) (toread : List Nat) : Option PDU :=
  match pduType with
  | 0 =>
    if toread.length = 4 then some (.serialNotify pver sessionId (read32 toread)) else none
  | 1 =>
    if toread.length = 4 then some (.serialQuery pver sessionId (read32 toread)) else none
  | 2 => if toread.length = 0 then some (.resetQuery pver) else none
  | 3 => if toread.length = 0 then some (.cacheResponse pver sessionId) else none
  | 4 =>
    if toread.length = 12 then
      some (.ipv4Pfx pver (toread.getD 0 0) (toread.getD 1 0) (toread.getD 2 0)
        ((toread.drop 4).take 4) (read32 (toread.drop 8)))
    else none
  | 6 =>
    if toread.length = 24 then
      some (.ipv6Pfx pver (toread.getD 0 0) (toread.getD 1 0) (toread.getD 2 0)
        ((toread.drop 4).take 16) (read32 (toread.drop 20)))
    else none
  | 7 =>
    if toread.length = 4 then
      some (.endOfData pver sessionId (read32 toread) 0 0 0)
    else if toread.length = 16 then
      some (.endOfData pver sessionId (read32 toread) (read32 (toread.drop 4))
        (read32 (toread.drop 8)) (read32 (toread.drop 12)))
    else none
  | 8 => if toread.length = 0 then some (.cacheReset pver) else none
  | 9 =>
    if toread.length < 28 then none
    else
      some (.routerKey pver (sessionId / 256) (toread.take 20) (read32 (toread.drop 20))
        (toread.drop 24))
  | 10 =>
    if toread.length < 8 then none
    else
      let lenPdu := read32 toread
      if toread.length < lenPdu + 8 then none
      else
        let errPdu := (toread.drop 4).take lenPdu
        let lenErrText := read32 (toread.drop (lenPdu + 4))
        if toread.length < lenPdu + 8 + lenErrText then none
        else some (.errorReport pver sessionId errPdu ((toread.drop (lenPdu + 8)).take lenErrText))
  | _ => none

/--
`Decode` from structs.go, reading exactly one PDU from the byte list.
Structural violations return `none`: fewer than 8 bytes fails the header
read; `length` outside `[8, messageMaxSize]` is refused; a stream shorter
than `length - 8` body bytes fails the body read (`toread.length` falls
short of `length - 8`); then the type switch (`decodeBody`) applies its
per-type body-size rule.
-/
def decode (b : List Nat) : Option PDU :=
  match b with
  | pver :: pduType :: s1 :: s2 :: l1 :: l2 :: l3 :: l4 :: rest =>
      let sessionId := s1 * 256 + s2
      let length := l1 * 2 ^ 24 + l2 * 2 ^ 16 + l3 * 2 ^ 8 + l4
      if length < 8 then none
      else if messageMaxSize < length then none
      else
        let toread := rest.take (length - 8)
        if toread.length ≠ length - 8 then none
        else decodeBody pver pduType sessionId toread
  | _ => none

/--
`IsCorrectPDUVersion` from structs.go: any version above 1 is rejected
outright, and a Router Key PDU is additionally rejected at version 0; every
other combination is accepted.
-/
def IsCorrectPDUVersion (pdu : PDU) (version : Nat) : Bool :=
  if version > 1 then false
  else
    match pdu with
    | .routerKey _ _ _ _ _ => if version = 0 then false else true
    | _ => true

/--
Well-formedness of a PDU value, mirroring the Go struct field types
(`uint8`/`uint16`/`uint32` fields, byte slices, a valid `netip.Prefix`),
plus the bounds the decoder imposes on the variable-length types: a Router
Key needs a 20-byte SKI (or `Write` emits nothing) and an SPKI of 4 to
262136 bytes, and an Error Report's total encoded length must not exceed
`messageMaxSize`.
-/
def PDU.wfB : PDU → Bool
  | .serialNotify _ sess serial => decide (sess < 2 ^ 16) && decide (serial < 2 ^ 32)
  | .serialQuery _ sess serial => decide (sess < 2 ^ 16) && decide (serial < 2 ^ 32)
  | .resetQuery _ => true
  | .cacheResponse _ sess => decide (sess < 2 ^ 16)
  | .ipv4Pfx _ flags pfxLen maxLen addr asn =>
      decide (flags < 256) && decide (pfxLen ≤ 32) && decide (maxLen < 256) &&
        decide (addr.length = 4) && addr.all (· < 256) && decide (asn < 2 ^ 32)
  | .ipv6Pfx _ flags pfxLen maxLen addr asn =>
      decide (flags < 256) && decide (pfxLen ≤ 128) && decide (maxLen < 256) &&
        decide (addr.length = 16) && addr.all (· < 256) && decide (asn < 2 ^ 32)
  | .endOfData _ sess serial r t e =>
      decide (sess < 2 ^ 16) && decide (serial < 2 ^ 32) && decide (r < 2 ^ 32) &&
        decide (t < 2 ^ 32) && decide (e < 2 ^ 32)
  | .cacheReset _ => true
  | .routerKey _ flags ski asn spki =>
      decide (flags < 256) && decide (ski.length = 20) && ski.all (· < 256) &&
        decide (asn < 2 ^ 32) && spki.all (· < 256) &&
        decide (4 ≤ spki.length) && decide (spki.length ≤ 262136)
  | .errorReport _ code pduCopy errorMsg =>
      decide (code < 2 ^ 16) && pduCopy.all (· < 256) && errorMsg.all (· < 256) &&
        decide (16 + pduCopy.length + errorMsg.length +
          (if errorMsg = [] then 0 else 1) ≤ messageMaxSize)
  | .aspa _ _ _ _ _ _ => true

/-- The PDU types structs.go's `Decode` knows about (all but ASPA, which has
no decode case in this file). -/
def PDU.inCodec : PDU → Bool
  | .aspa _ _ _ _ _ _ => false
  | _ => true

/--
What one encode/decode round trip actually produces: the value with the
encoded version, except that encoding End of Data at version 0 drops the
three interval fields (they decode as zero), and a non-empty Error Report
message comes back with its NUL terminator appended.
-/
def roundTripNorm (p : PDU) (v : Nat) : PDU :=
  match p with
  | .endOfData _ sess serial r t e =>
      if v = 0 then .endOfData v sess serial 0 0 0 else .endOfData v sess serial r t e
  | .errorReport _ code pduCopy errorMsg =>
      .errorReport v code pduCopy (if errorMsg = [] then [] else errorMsg ++ [0])
  | p => p.setVersion v

/--
A `SendableData` value: one of the three deliverable-object variants of
server.go (`VRP`, `BgpsecKey`, `VAP`).  A `net.IPNet` is represented by its
address bytes and its mask bit count; byte slices are byte lists.  The Go
`Copy` method produces a deep copy observably equal to the original, so it
is the identity on these values.
-/
inductive SD where
  | vrp (addr : List Nat) (maskBits maxLen asn flags : Nat)
  | brk (asn : Nat) (pubkey ski : List Nat) (flags : Nat)
  | vap (flags afi customerASN : Nat) (providers : List Nat)
deriving DecidableEq

/-- The content fingerprints produced by the three `HashKey` methods.  Each
variant's hash string is a function of exactly these components; the
variants' string formats are distinct, which the separate constructors
capture. -/
inductive HKey where
  | vrpK (addr : List Nat) (maskBits maxLen asn : Nat)
  | brkK (asn : Nat) (ski pubkey : List Nat)
  | vapK (customerASN afi : Nat) (providers : List Nat)
deriving DecidableEq

/-- `HashKey` of each variant (flags are not part of the fingerprint). -/
def SD.hashKey : SD → HKey
  | .vrp addr maskBits maxLen asn _ => .vrpK addr maskBits maxLen asn
  | .brk asn pubkey ski _ => .brkK asn ski pubkey
  | .vap _ afi customerASN providers => .vapK customerASN afi providers

/-- `GetFlag` of each variant. -/
def SD.getFlag : SD → Nat
  | .vrp _ _ _ _ flags => flags
  | .brk _ _ _ flags => flags
  | .vap flags _ _ _ => flags

/-- `SetFlag` of each variant. -/
def SD.setFlag : SD → Nat → SD
  | .vrp addr maskBits maxLen asn _, f => .vrp addr maskBits maxLen asn f
  | .brk asn pubkey ski _, f => .brk asn pubkey ski f
  | .vap _ afi customerASN providers, f => .vap f afi customerASN providers

/-- `Copy`: deep copy, observably the identity on the value. -/
def SD.copy (sd : SD) : SD := sd

/--
Lookup in the map built by `ConvertSDListToMap`: the list is folded into a
hash map keyed by `HashKey`, so a later entry with the same key overwrites
an earlier one.
-/
def mapGet (l : List SD) (k : HKey) : Option SD :=
  l.foldl (fun acc x => if x.hashKey = k then some x else acc) none

/--
`ComputeDiff` from server.go: objects of `newSDs` whose key is absent from
`prevSDs` are copied with `FLAG_ADDED`; objects of `prevSDs` whose key is
absent from `newSDs` are copied with `FLAG_REMOVED`; the remaining objects
of `prevSDs` are copied unchanged.
-/
def computeDiff (newSDs prevSDs : List SD) : List SD × List SD × List SD :=
  (newSDs.filterMap fun v =>
      if (mapGet prevSDs v.hashKey).isSome then none
      else some (v.copy.setFlag FLAG_ADDED),
   prevSDs.filterMap fun v =>
      if (mapGet newSDs v.hashKey).isSome then none
      else some (v.copy.setFlag FLAG_REMOVED),
   prevSDs.filterMap fun v =>
      if (mapGet newSDs v.hashKey).isSome then some v.copy else none)

/--
`ApplyDiff` from server.go: keep every `prevSDs` object whose key does not
occur in the diff, then walk the diff, appending `FLAG_ADDED` objects, and
appending a `FLAG_REMOVED` object only when `prevSDs` has no object with
that key, or has one that is itself flagged removed.
-/
def applyDiff (diff prevSDs : List SD) : List SD :=
  (prevSDs.filterMap fun v =>
      if (mapGet diff v.hashKey).isSome then none else some v.copy)
  ++ diff.filterMap fun v =>
      if v.getFlag = FLAG_ADDED then some v.copy
      else if v.getFlag = FLAG_REMOVED then
        match mapGet prevSDs v.hashKey with
        | none => some v.copy
        | some c => if c.getFlag = FLAG_REMOVED then some v.copy else none
      else none

/--
The dataset-store fields of `Server` (server.go).  The Go `map[uint32]int`
is represented extensionally as a function from serials to optional
indices; `keepDiff` is a Go `int`.  The zero values match what `NewServer`
builds (empty slices and map, serial 0, `manualserial` false).
-/
structure StoreState where
  sdListDiff : List (List SD) := []
  sdMapSerial : Nat → Option Int := fun _ => none
  sdListSerial : List Nat := []
  sdCurrent : List SD := []
  sdCurrentSerial : Nat := 0
  keepDiff : Int := 0
  manualserial : Bool := false

/-- The store as `NewServer` initializes it. -/
def initialStore : StoreState := {}

/-- `getCurrentSerial`: the current serial together with a validity flag
that is true exactly when at least one serial has been recorded. -/
def getCurrentSerial (s : StoreState) : Nat × Bool :=
  (s.sdCurrentSerial, decide (0 < s.sdListSerial.length))

/-- `generateSerial`: in automatic mode with non-empty history, one past the
last recorded serial (32-bit wrap); otherwise the current serial. -/
def generateSerial (s : StoreState) : Nat :=
  if s.manualserial = false ∧ 0 < s.sdListSerial.length then
    (s.sdListSerial.getD (s.sdListSerial.length - 1) 0 + 1) % 2 ^ 32
  else s.sdCurrentSerial

/-- `setSerial` (and its public wrapper `SetSerial`): overwrite the current
serial; note that the history list is left untouched. -/
def setSerial (s : StoreState) (serial : Nat) : StoreState :=
  { s with sdCurrentSerial := serial }

/-- `addSerial`: when `keepDiff` is positive and the history is full, drop
the oldest serials before appending; returns the new state and the dropped
serials. -/
def addSerial (s : StoreState) (serial : Nat) : StoreState × List Nat :=
  if (s.sdListSerial.length : Int) ≥ s.keepDiff ∧ s.keepDiff > 0 then
    let removeDiff := ((s.sdListSerial.length : Int) - s.keepDiff).toNat
    let removed := s.sdListSerial.take removeDiff
    ({ s with sdListSerial := s.sdListSerial.drop removeDiff ++ [serial] }, removed)
  else
    ({ s with sdListSerial := s.sdListSerial ++ [serial] }, [])

/--
`AddSDsDiff` from server.go: re-apply the new diff to every stored diff and
to the current snapshot, generate the next serial, append the diff, trim
the diff list in step with the serial list, point the map entry for the
previous current serial at the new diff, shift the other entries by the
number of dropped diffs, and delete the dropped serials' entries.
-/
def addSDsDiff (s : StoreState) (diff : List SD) : StoreState :=
  let nextDiff0 := s.sdListDiff.map fun prevVrps => applyDiff diff prevVrps
  let newVrpCurrent := applyDiff diff s.sdCurrent
  let curserial := (getCurrentSerial s).1
  let newserial := generateSerial s
  let p := addSerial s newserial
  let nextDiff1 := nextDiff0 ++ [diff]
  let nextDiff2 :=
    if (nextDiff1.length : Int) ≥ s.keepDiff ∧ s.keepDiff > 0 then
      nextDiff1.drop p.2.length
    else nextDiff1
  let m1 : Nat → Option Int := fun k =>
    if k = curserial then some ((nextDiff2.length : Int) - 1) else s.sdMapSerial k
  let m2 : Nat → Option Int :=
    if 0 < p.2.length then
      fun k => if k = curserial then m1 k else (m1 k).map fun v => v - p.2.length
    else m1
  let m3 : Nat → Option Int := fun k => if k ∈ p.2 then none else m2 k
  { p.1 with
      sdListDiff := nextDiff2
      sdMapSerial := m3
      sdCurrent := newVrpCurrent
      sdCurrentSerial := newserial }

/-- `AddData` from server.go: copy the supplied objects, diff them against
the current snapshot, and install added-plus-removed via `AddSDsDiff`
(the unchanged list is only logged). -/
def addData (s : StoreState) (vrps : List SD) : StoreState :=
  let vrpsAsSD := vrps.map SD.copy
  let d := computeDiff vrpsAsSD s.sdCurrent
  addSDsDiff s (d.1 ++ d.2.1)

/--
`getSDsSerialDiff` from server.go: the empty diff for the current serial;
otherwise the stored diff the serial map points at, with the lookup success
as the `known` flag.  (The Go code indexes the diff slice directly and would
panic out of range; reachable states keep the indices in range, and the
embedding returns `[]` for an out-of-range index.)
-/
def getSDsSerialDiff (s : StoreState) (serial : Nat) : List SD × Bool :=
  if serial = s.sdCurrentSerial then ([], true)
  else
    match s.sdMapSerial serial with
    | some index => (s.sdListDiff.getD index.toNat [], true)
    | none => ([], false)

/--
The per-client handler state (`Client` in server.go): the fields mutated or
read by the PDU-handling path.  `enforceVersionC` is the `Client.enforceVersion`
field, which no code in server.go ever sets.  The zero values are the Go
zero values of `ClientFromConn`; `Client.Start` sets `connected`.
-/
structure ClientState where
  connected : Bool := true
  version : Nat := 0
  versionset : Bool := false
  curserial : Nat := 0
  enforceVersionC : Bool := false
  disableVersionCheck : Bool := false
  refreshInterval : Nat := 0
  retryInterval : Nat := 0
  expireInterval : Nat := 0
  dontSendBGPsecKeys : Bool := false
  dontSendASPA : Bool := false
deriving DecidableEq

/-- A client as produced by `ClientFromConn` + `SetIntervals` + `Start`, with
no PDU received yet. -/
def freshClient (r t e : Nat) : ClientState :=
  { refreshInterval := r, retryInterval := t, expireInterval := e }

/-- The server fields consulted on the handler path, together with whether a
`RTRServerEventHandler` is registered. -/
structure SrvState where
  store : StoreState
  sessId : Nat
  baseVersion : Nat
  enforceVersion : Bool
  handlerPresent : Bool

/-- Byte string of an ASCII message (the Go error messages are ASCII). -/
def msgBytes (s : String) : List Nat := s.data.map Char.toNat

/-- `Client.SendPDU`: stamp the client's negotiated version into the PDU
just before queueing it. -/
def sendPDU (c : ClientState) (p : PDU) : PDU := p.setVersion c.version

/-- `Client.Disconnect`: mark the handler not connected (the writer shutdown
and registry notification carry no further PDU-level state). -/
def disconnectC (c : ClientState) : ClientState := { c with connected := false }

/-- `Client.SetVersion`. -/
def setVersionC (c : ClientState) (newversion : Nat) : ClientState :=
  { c with versionset := true, version := newversion }

/-- The PDU built by `Client.SendNoDataError` (before version stamping). -/
def noDataPDU : PDU := .errorReport 0 2 [] (msgBytes "No data available")

/-- The PDU built by `Client.SendCorruptData`. -/
def corruptDataPDU : PDU :=
  .errorReport 0 0 [] (msgBytes "Session ID mismatch: client is desynchronized")

/-- The PDU built by `Client.SendWrongVersionError`. -/
def wrongVersionPDU : PDU := .errorReport 0 4 [] (msgBytes "Bad protocol version")

/-- The PDU built by `Client.SendInternalError`. -/
def internalErrorPDU : PDU := .errorReport 0 1 [] (msgBytes "Unknown internal error")

/-- `net.IP.To4`: a 4-byte address, or the low four bytes of a 16-byte
IPv4-mapped address; `none` otherwise. -/
def goTo4 (addr : List Nat) : Option (List Nat) :=
  if addr.length = 4 then some addr
  else if addr.length = 16 ∧ addr.take 12 = [0, 0, 0, 0, 0, 0, 0, 0, 0, 0, 255, 255] then
    some (addr.drop 12)
  else none

/--
`Client.SendData`: project a deliverable object to a PDU, or suppress it.
A VRP becomes an IPv6 or IPv4 prefix PDU by the `To4`/`To16` tests on its
address (an address of a length other than 4 or 16 is silently dropped); a
BGPsec key is suppressed at version 0 or when disabled; an ASPA object is
suppressed below version 2 or when disabled.  The built PDU is then passed
to `SendPDU`, which overwrites its version anyway.
-/
def sendData (c : ClientState) (sd : SD) : Option PDU :=
  match sd with
  | .vrp addr maskBits maxLen asn flags =>
      if (goTo4 addr).isNone ∧ (addr.length = 4 ∨ addr.length = 16) then
        some (.ipv6Pfx 0 flags maskBits maxLen addr asn)
      else if (goTo4 addr).isSome then
        some (.ipv4Pfx 0 flags maskBits maxLen addr asn)
      else none
  | .brk asn pubkey ski flags =>
      if c.version = 0 ∨ c.dontSendBGPsecKeys then none
      else some (.routerKey c.version flags ski asn pubkey)
  | .vap flags afi customerASN providers =>
      if c.version < 2 ∨ c.dontSendASPA then none
      else some (.aspa c.version flags afi providers.length customerASN providers)

/-- `Client.SendSDs`: Cache Response, one data PDU per object (each object
passed as a copy), End of Data with the client's intervals; every PDU goes
through `SendPDU`. -/
def sendSDs (c : ClientState) (sessionId serialNumber : Nat) (data : List SD) : List PDU :=
  [sendPDU c (.cacheResponse 0 sessionId)]
    ++ data.filterMap (fun sd => (sendData c sd.copy).map (sendPDU c))
    ++ [sendPDU c (.endOfData 0 sessionId serialNumber c.refreshInterval c.retryInterval
          c.expireInterval)]

/--
`DefaultRTREventHandler.RequestCache`, with the `SendableDataManager` being
the server's own store (the wiring the repository uses): no valid current
serial means a No Data error; otherwise `GetCurrentSDs` (which always
succeeds) feeds `SendSDs`.  Returns the updated client and the queued PDUs.
-/
def requestCache (st : StoreState) (serverSessId : Nat) (c : ClientState) :
    ClientState × List PDU :=
  let sessionId := serverSessId
  let sv := getCurrentSerial st
  if sv.2 = false then (c, [sendPDU c noDataPDU])
  else
    let cur := (st.sdCurrent, true)
    if cur.2 = false then (c, [sendPDU c internalErrorPDU])
    else (c, sendSDs c sessionId sv.1 cur.1)

/--
`DefaultRTREventHandler.RequestNewVersion`: a session mismatch sends
Corrupt Data and disconnects; an invalid current serial sends No Data; an
unknown requested serial sends Cache Reset; otherwise the stored diff is
streamed via `SendSDs`.
-/
def requestNewVersion (st : StoreState) (serverSessId : Nat) (c : ClientState)
    (sessionId serialNumber : Nat) : ClientState × List PDU :=
  if sessionId ≠ serverSessId then (disconnectC c, [sendPDU c corruptDataPDU])
  else
    let sv := getCurrentSerial st
    if sv.2 = false then (c, [sendPDU c noDataPDU])
    else
      let dk := getSDsSerialDiff st serialNumber
      if dk.2 = false then (c, [sendPDU c (.cacheReset 0)])
      else (c, sendSDs c sessionId sv.1 dk.1)

/--
`Client.checkVersion`: latch the announced version if none is set yet or it
matches, and it is one of the supported versions 0, 1, 2
(`PROTOCOL_VERSION_2` is referenced by server.go; structs.go defines only
versions 0 and 1, so the value 2 is taken from the spec); otherwise send a
Bad Protocol Version error and disconnect.
-/
def checkVersionC (c : ClientState) (newversion : Nat) : ClientState × List PDU :=
  if (c.versionset = false ∨ newversion = c.version) ∧
      (newversion = 2 ∨ newversion = 1 ∨ newversion = 0) then
    (setVersionC c newversion, [])
  else (disconnectC c, [sendPDU c wrongVersionPDU])

/--
`Server.HandlePDU`: under version enforcement a client at a version other
than the base version is sent a Bad Protocol Version error and disconnected
(without stopping); a client above the base version is downgraded; the PDU
is then dispatched to the registered `RTRServerEventHandler` if any.
Returns the updated client, the queued PDUs, and the PDUs dispatched to the
registered handler.
-/
def serverHandlePDU (srv : SrvState) (c : ClientState) (pdu : PDU) :
    ClientState × List PDU × List PDU :=
  let r1 : ClientState × List PDU :=
    if srv.enforceVersion = true ∧ c.version ≠ srv.baseVersion then
      (disconnectC c, [sendPDU c wrongVersionPDU])
    else (c, [])
  let c2 := if r1.1.version > srv.baseVersion then setVersionC r1.1 srv.baseVersion else r1.1
  (c2, r1.2, if srv.handlerPresent then [pdu] else [])

/-- `Client.passSimpleHandler`, with the simple handler being the server and
its `RTREventHandler` the `DefaultRTREventHandler` backed by the server
store (the repository's wiring): Serial Query and Reset Query are
dispatched; anything else is ignored. -/
def passSimpleHandler (srv : SrvState) (c : ClientState) (pdu : PDU) :
    ClientState × List PDU :=
  match pdu with
  | .serialQuery _ qSess qSerial => requestNewVersion srv.store srv.sessId c qSess qSerial
  | .resetQuery _ => requestCache srv.store srv.sessId c
  | _ => (c, [])

/-- The `curserial` update in `Client.Start`'s loop: a Serial Query records
its requested serial on the client. -/
def updateCurserial (c : ClientState) (dec : PDU) : ClientState :=
  match dec with
  | .serialQuery _ _ serial => { c with curserial := serial }
  | _ => c

/--
One iteration of `Client.Start`'s read loop on an already-decoded PDU:
version check, the (dead, never-enabled) per-client `IsCorrectPDUVersion`
check, `curserial` update for Serial Query, `Server.HandlePDU` (the client's
handler is the server itself), then `passSimpleHandler`.  Returns the final
client state, all queued PDUs in order, and the PDUs dispatched to the
registered event handler.
-/
def clientStep (srv : SrvState) (c : ClientState) (dec : PDU) :
    ClientState × List PDU × List PDU :=
  let r1 := if c.disableVersionCheck = false then checkVersionC c dec.version else (c, [])
  let r2 :=
    if r1.1.enforceVersionC = true ∧ IsCorrectPDUVersion dec r1.1.version = false then
      (disconnectC r1.1, [sendPDU r1.1 wrongVersionPDU])
    else (r1.1, [])
  let c3 := updateCurserial r2.1 dec
  let r4 := serverHandlePDU srv c3 dec
  let r5 := passSimpleHandler srv r4.1 dec
  (r5.1, r1.2 ++ r2.2 ++ r4.2.1 ++ r5.2, r4.2.2)

/-- A VRP-shaped object used in the snapshot-history scenario below. -/
def c2Obj : SD := .vrp [192, 0, 2, 0] 24 24 64496 0

/-- Store after installing snapshot `S_0 = {c2Obj}` into the empty store
(unlimited diff retention). -/
def c2Store1 : StoreState := addData initialStore [c2Obj]

/-- Store after additionally installing `S_1 = {}`. -/
def c2Store2 : StoreState := addData c2Store1 []

/-- Store after additionally installing `S_2 = {c2Obj}` (the object is
re-added). -/
def c2Store3 : StoreState := addData c2Store2 [c2Obj]

/-- Store after additionally installing `S_3 = {}` (the object is removed
again). -/
def c2Store4 : StoreState := addData c2Store3 []

/-! ## Theorems -/

theorem pduVersion_setVersion (p : PDU) (v : Nat) : (p.setVersion v).version = v := by
  cases p <;> rfl

theorem pduVersion_sendPDU (c : ClientState) (p : PDU) :
    (sendPDU c p).version = c.version := pduVersion_setVersion p c.version

/--
C4: for every store state, querying the diff since the store's current
serial returns the empty list with `known = true`.
-/
theorem C4_diff_at_current_serial (s : StoreState) :
    getSDsSerialDiff s s.sdCurrentSerial = ([], true) := by
  simp [getSDsSerialDiff]

/--
C9 counterexample: after `SetSerial 5` on the empty store the history is
still empty, yet `getCurrentSerial` returns `(5, false)`, not `(0, false)`.
-/
theorem C9_counterexample :
    (setSerial initialStore 5).sdListSerial = []
      ∧ getCurrentSerial (setSerial initialStore 5) ≠ (0, false) := by
  decide

/--
C9 amended: whenever the history is empty, `getCurrentSerial` returns the
stored `sdCurrentSerial` (which `SetSerial` may have overwritten) with
validity `false`; `(0, false)` is only the special case of a store whose
serial was never set.
-/
theorem C9_current_serial_on_empty_history (s : StoreState) (h : s.sdListSerial = []) :
    getCurrentSerial s = (s.sdCurrentSerial, false) := by
  simp [getCurrentSerial, h]

theorem C9_witness :
    getCurrentSerial (setSerial initialStore 5)
      = ((setSerial initialStore 5).sdCurrentSerial, false) :=
  C9_current_serial_on_empty_history _ rfl

/--
C3: evaluation of `IsCorrectPDUVersion` against the claim.  The claim says
a Router-Key PDU is accepted exactly at versions 1 and 2, an ASPA PDU
exactly at version 2, and every other PDU at versions 0, 1 and 2.  The code
instead rejects every PDU at version 2 (including Router-Key and ASPA) and
accepts an ASPA PDU at version 1.
-/
theorem C3_version_helper_divergence :
    IsCorrectPDUVersion (.routerKey 2 1 (List.replicate 20 0) 0 [0, 0, 0, 0]) 2 = false
      ∧ IsCorrectPDUVersion (.serialQuery 2 0 0) 2 = false
      ∧ IsCorrectPDUVersion (.aspa 2 1 0 0 64496 [64497]) 2 = false
      ∧ IsCorrectPDUVersion (.aspa 1 1 0 0 64496 [64497]) 1 = true := by
  decide

/--
C2: in the snapshot sequence `S_0 = {c2Obj}`, `S_1 = {}`, `S_2 = {c2Obj}`,
`S_3 = {}` installed into the empty store, serial 0 and serial 1 are still
retained, but the diffs stored for them are empty, so applying the stored
diff for serial 1 to `S_0` yields `S_0` rather than `S_1` (the claim), and
applying the stored diff for serial 0 to `S_0` also fails to reach the
current snapshot `S_3` (the code's own coalescing intent): the removal of
the re-added object is lost.
-/
theorem C2_coalescing_loses_removal :
    c2Store1.sdCurrentSerial = 0 ∧ c2Store2.sdCurrentSerial = 1
      ∧ c2Store4.sdCurrentSerial = 3
      ∧ c2Store4.sdListSerial = [0, 1, 2, 3]
      ∧ c2Store1.sdCurrent = [SD.vrp [192, 0, 2, 0] 24 24 64496 1]
      ∧ c2Store2.sdCurrent = []
      ∧ c2Store4.sdCurrent = []
      ∧ getSDsSerialDiff c2Store4 1 = ([], true)
      ∧ applyDiff (getSDsSerialDiff c2Store4 1).1 c2Store1.sdCurrent ≠ c2Store2.sdCurrent
      ∧ getSDsSerialDiff c2Store4 0 = ([], true)
      ∧ applyDiff (getSDsSerialDiff c2Store4 0).1 c2Store1.sdCurrent ≠ c2Store4.sdCurrent := by
  decide

/--
C6: a Serial Query whose session id differs from the server's makes the
handler queue exactly one Error Report with code 0 (Corrupt Data) and
disconnect the client; no Cache Response or data PDU is queued.
-/
theorem C6_session_mismatch (st : StoreState) (sessId : Nat) (c : ClientState)
    (qSess qSerial : Nat) (h : qSess ≠ sessId) :
    requestNewVersion st sessId c qSess qSerial
      = (disconnectC c,
         [.errorReport c.version 0 []
            (msgBytes "Session ID mismatch: client is desynchronized")]) := by
  simp [requestNewVersion, h, sendPDU, corruptDataPDU, PDU.setVersion]

theorem C6_witness :
    requestNewVersion initialStore 4660 (freshClient 3600 600 7200) 57005 42
      = (disconnectC (freshClient 3600 600 7200),
         [.errorReport 0 0 []
            (msgBytes "Session ID mismatch: client is desynchronized")]) :=
  C6_session_mismatch _ _ _ _ _ (by decide)

/--
C7: a Serial Query with the matching session id while the store has a valid
current serial, whose requested serial is outside the retained window,
makes the handler queue exactly one Cache Reset PDU and leave the client
untouched (in particular connected).
-/
theorem C7_out_of_window (st : StoreState) (sessId : Nat) (c : ClientState) (qSerial : Nat)
    (hvalid : 0 < st.sdListSerial.length)
    (hmiss : (getSDsSerialDiff st qSerial).2 = false) :
    requestNewVersion st sessId c sessId qSerial = (c, [.cacheReset c.version]) := by
  simp [requestNewVersion, getCurrentSerial, hvalid, hmiss, sendPDU, PDU.setVersion]

theorem C7_witness :
    requestNewVersion { sdListSerial := [20], sdCurrentSerial := 20 } 4660
        (freshClient 3600 600 7200) 4660 5
      = (freshClient 3600 600 7200, [.cacheReset 0]) :=
  C7_out_of_window _ _ _ _ (by decide) (by decide)

/--
C8: a Reset Query while the store has no current serial makes the handler
queue exactly one Error Report with code 2 (No Data Available) and leave
the client untouched (in particular connected).
-/
theorem C8_no_data (st : StoreState) (sessId : Nat) (c : ClientState)
    (hempty : st.sdListSerial = []) :
    requestCache st sessId c
      = (c, [.errorReport c.version 2 [] (msgBytes "No data available")]) := by
  simp [requestCache, getCurrentSerial, hempty, sendPDU, noDataPDU, PDU.setVersion]

theorem C8_witness :
    requestCache initialStore 4660 (freshClient 3600 600 7200)
      = (freshClient 3600 600 7200,
         [.errorReport 0 2 [] (msgBytes "No data available")]) :=
  C8_no_data _ _ _ rfl

/--
C10: with version enforcement on and a client at a version other than the
base version, `Server.HandlePDU` queues the Bad Protocol Version Error
Report and disconnects, yet still dispatches the same PDU to the registered
event handler.
-/
theorem C10_dispatch_after_error (srv : SrvState) (c : ClientState) (pdu : PDU)
    (henf : srv.enforceVersion = true) (hver : c.version ≠ srv.baseVersion)
    (hreg : srv.handlerPresent = true) :
    (serverHandlePDU srv c pdu).2.2 = [pdu]
      ∧ (serverHandlePDU srv c pdu).2.1
          = [.errorReport c.version 4 [] (msgBytes "Bad protocol version")]
      ∧ (serverHandlePDU srv c pdu).1.connected = false := by
  refine ⟨?_, ?_, ?_⟩ <;>
    simp [serverHandlePDU, henf, hver, hreg, sendPDU, wrongVersionPDU, PDU.setVersion]
  split <;> simp [setVersionC, disconnectC]

theorem C10_witness :
    (serverHandlePDU ⟨initialStore, 4660, 1, true, true⟩ (freshClient 3600 600 7200)
        (.serialQuery 0 4660 7)).2.2 = [.serialQuery 0 4660 7]
      ∧ (serverHandlePDU ⟨initialStore, 4660, 1, true, true⟩ (freshClient 3600 600 7200)
          (.serialQuery 0 4660 7)).2.1
          = [.errorReport 0 4 [] (msgBytes "Bad protocol version")]
      ∧ (serverHandlePDU ⟨initialStore, 4660, 1, true, true⟩ (freshClient 3600 600 7200)
          (.serialQuery 0 4660 7)).1.connected = false :=
  C10_dispatch_after_error _ _ _ rfl (by decide) rfl

theorem mem_sendSDs_version {c : ClientState} {sess serial : Nat} {data : List SD} {p : PDU}
    (h : p ∈ sendSDs c sess serial data) : p.version = c.version := by
  simp only [sendSDs, List.mem_append, List.mem_singleton, List.mem_filterMap,
    Option.map_eq_some'] at h
  rcases h with (rfl | ⟨sd, _, q, _, rfl⟩) | rfl <;> exact pduVersion_sendPDU c _

theorem requestCache_fst (st : StoreState) (sid : Nat) (c : ClientState) :
    (requestCache st sid c).1 = c := by
  simp only [requestCache]
  split <;> [rfl; split <;> rfl]

theorem requestCache_out_version {st : StoreState} {sid : Nat} {c : ClientState} {p : PDU}
    (h : p ∈ (requestCache st sid c).2) : p.version = c.version := by
  simp only [requestCache] at h
  split at h
  · rw [List.mem_singleton.1 h]; exact pduVersion_sendPDU c _
  · split at h
    · rw [List.mem_singleton.1 h]; exact pduVersion_sendPDU c _
    · exact mem_sendSDs_version h

theorem requestNewVersion_fst_version (st : StoreState) (sid : Nat) (c : ClientState)
    (a b : Nat) : (requestNewVersion st sid c a b).1.version = c.version := by
  simp only [requestNewVersion]
  split <;> [rfl; split <;> [rfl; split <;> rfl]]

theorem requestNewVersion_out_version {st : StoreState} {sid : Nat} {c : ClientState}
    {a b : Nat} {p : PDU} (h : p ∈ (requestNewVersion st sid c a b).2) :
    p.version = c.version := by
  simp only [requestNewVersion] at h
  split at h
  · rw [List.mem_singleton.1 h]; exact pduVersion_sendPDU c _
  · split at h
    · rw [List.mem_singleton.1 h]; exact pduVersion_sendPDU c _
    · split at h
      · rw [List.mem_singleton.1 h]; exact pduVersion_sendPDU c _
      · exact mem_sendSDs_version h

theorem passSimpleHandler_fst_version (srv : SrvState) (c : ClientState) (pdu : PDU) :
    (passSimpleHandler srv c pdu).1.version = c.version := by
  cases pdu <;>
    simp [passSimpleHandler, requestNewVersion_fst_version, requestCache_fst]

theorem passSimpleHandler_out_version {srv : SrvState} {c : ClientState} {pdu : PDU} {p : PDU}
    (h : p ∈ (passSimpleHandler srv c pdu).2) : p.version = c.version := by
  cases pdu <;> simp only [passSimpleHandler] at h
  case serialQuery => exact requestNewVersion_out_version h
  case resetQuery => exact requestCache_out_version h
  all_goals simp at h

@[simp] theorem updateCurserial_version (c : ClientState) (dec : PDU) :
    (updateCurserial c dec).version = c.version := by
  cases dec <;> rfl

@[simp] theorem updateCurserial_enfC (c : ClientState) (dec : PDU) :
    (updateCurserial c dec).enforceVersionC = c.enforceVersionC := by
  cases dec <;> rfl

@[simp] theorem setVersionC_version (c : ClientState) (v : Nat) :
    (setVersionC c v).version = v := rfl

@[simp] theorem setVersionC_enfC (c : ClientState) (v : Nat) :
    (setVersionC c v).enforceVersionC = c.enforceVersionC := rfl

@[simp] theorem disconnectC_version (c : ClientState) :
    (disconnectC c).version = c.version := rfl

@[simp] theorem disconnectC_enfC (c : ClientState) :
    (disconnectC c).enforceVersionC = c.enforceVersionC := rfl

theorem clientStep_unfold (srv : SrvState) (c : ClientState) (dec : PDU)
    (hdvc : c.disableVersionCheck = false)
    (henfc : (checkVersionC c dec.version).1.enforceVersionC = false) :
    clientStep srv c dec
      = ((passSimpleHandler srv
            (serverHandlePDU srv (updateCurserial (checkVersionC c dec.version).1 dec) dec).1
            dec).1,
         (checkVersionC c dec.version).2
           ++ (serverHandlePDU srv (updateCurserial (checkVersionC c dec.version).1 dec) dec).2.1
           ++ (passSimpleHandler srv
                (serverHandlePDU srv (updateCurserial (checkVersionC c dec.version).1 dec) dec).1
                dec).2,
         (serverHandlePDU srv (updateCurserial (checkVersionC c dec.version).1 dec) dec).2.2) := by
  unfold clientStep
  simp [hdvc, henfc]

theorem serverHandlePDU_fst_enfFalse (srv : SrvState) (c : ClientState) (pdu : PDU)
    (henf : srv.enforceVersion = false) :
    (serverHandlePDU srv c pdu).1
      = if c.version > srv.baseVersion then setVersionC c srv.baseVersion else c := by
  simp [serverHandlePDU, henf]

theorem serverHandlePDU_out_enfFalse (srv : SrvState) (c : ClientState) (pdu : PDU)
    (henf : srv.enforceVersion = false) :
    (serverHandlePDU srv c pdu).2.1 = [] := by
  simp [serverHandlePDU, henf]

theorem checkVersionC_version_one {c : ClientState} (nv : Nat) (hv : c.version = 1)
    (hvs : c.versionset = true) :
    (checkVersionC c nv).1.version = 1
      ∧ (checkVersionC c nv).1.enforceVersionC = c.enforceVersionC
      ∧ ∀ p ∈ (checkVersionC c nv).2, p.version = 1 := by
  unfold checkVersionC
  split
  case isTrue h =>
    rcases h with ⟨h1 | h1, _⟩
    · rw [hvs] at h1; cases h1
    · simp [h1, hv]
  case isFalse h =>
    refine ⟨by simp [hv], by simp, ?_⟩
    intro p hp
    rw [List.mem_singleton.1 hp, pduVersion_sendPDU, hv]

/--
C5: with `enforce_version` off and base version 1, a fresh client whose
first PDU is a Serial Query at version 2 ends the step downgraded to
version 1 with every queued PDU stamped version 1; and from then on (the
client latched at version 1) every later step keeps the version at 1 and
stamps every queued PDU with version 1.
-/
theorem C5_downgrade_to_base (srv : SrvState) (hbase : srv.baseVersion = 1)
    (henf : srv.enforceVersion = false) (r t e qs qn : Nat) :
    ((clientStep srv (freshClient r t e) (.serialQuery 2 qs qn)).1.version = 1
      ∧ ∀ p ∈ (clientStep srv (freshClient r t e) (.serialQuery 2 qs qn)).2.1, p.version = 1)
    ∧ ∀ (c : ClientState) (pdu : PDU), c.version = 1 → c.versionset = true →
        c.disableVersionCheck = false → c.enforceVersionC = false →
        ((clientStep srv c pdu).1.version = 1
          ∧ ∀ p ∈ (clientStep srv c pdu).2.1, p.version = 1) := by
  constructor
  · rw [clientStep_unfold srv (freshClient r t e) (.serialQuery 2 qs qn) rfl rfl]
    rw [serverHandlePDU_fst_enfFalse _ _ _ henf, serverHandlePDU_out_enfFalse _ _ _ henf]
    have hdown : ((updateCurserial
        (checkVersionC (freshClient r t e) (PDU.serialQuery 2 qs qn).version).1
        (PDU.serialQuery 2 qs qn)).version > srv.baseVersion) := by
      rw [updateCurserial_version, hbase]
      exact Nat.one_lt_two
    rw [if_pos hdown]
    have hvfin : (setVersionC (updateCurserial
        (checkVersionC (freshClient r t e) (PDU.serialQuery 2 qs qn).version).1
        (PDU.serialQuery 2 qs qn)) srv.baseVersion).version = 1 := by
      rw [setVersionC_version, hbase]
    refine ⟨?_, ?_⟩
    · rw [passSimpleHandler_fst_version, hvfin]
    · intro p hp
      simp only [List.mem_append] at hp
      rcases hp with (hp | hp) | hp
      · simp [checkVersionC, freshClient, PDU.version] at hp
      · simp at hp
      · exact (passSimpleHandler_out_version hp).trans hvfin
  · intro c pdu hv hvs hdvc hec
    obtain ⟨hcv1, hcv2, hcv3⟩ := checkVersionC_version_one (c := c) pdu.version hv hvs
    rw [clientStep_unfold srv c pdu hdvc (hcv2.trans hec)]
    rw [serverHandlePDU_fst_enfFalse _ _ _ henf, serverHandlePDU_out_enfFalse _ _ _ henf]
    have hdown : ¬((updateCurserial (checkVersionC c pdu.version).1 pdu).version
        > srv.baseVersion) := by
      rw [updateCurserial_version, hcv1, hbase]
      omega
    rw [if_neg hdown]
    have hvfin : (updateCurserial (checkVersionC c pdu.version).1 pdu).version = 1 := by
      rw [updateCurserial_version, hcv1]
    refine ⟨?_, ?_⟩
    · rw [passSimpleHandler_fst_version, hvfin]
    · intro p hp
      simp only [List.mem_append] at hp
      rcases hp with (hp | hp) | hp
      · exact hcv3 p hp
      · simp at hp
      · exact (passSimpleHandler_out_version hp).trans hvfin

theorem C5_witness :
    ((clientStep ⟨initialStore, 4660, 1, false, true⟩ (freshClient 3600 600 7200)
        (.serialQuery 2 4660 7)).1.version = 1
      ∧ ∀ p ∈ (clientStep ⟨initialStore, 4660, 1, false, true⟩ (freshClient 3600 600 7200)
          (.serialQuery 2 4660 7)).2.1, p.version = 1)
    ∧ ((clientStep ⟨initialStore, 4660, 1, false, true⟩
          { freshClient 3600 600 7200 with version := 1, versionset := true }
          (.resetQuery 1)).1.version = 1
        ∧ ∀ p ∈ (clientStep ⟨initialStore, 4660, 1, false, true⟩
            { freshClient 3600 600 7200 with version := 1, versionset := true }
            (.resetQuery 1)).2.1, p.version = 1) :=
  ⟨(C5_downgrade_to_base ⟨initialStore, 4660, 1, false, true⟩ rfl rfl 3600 600 7200 4660 7).1,
   (C5_downgrade_to_base ⟨initialStore, 4660, 1, false, true⟩ rfl rfl 3600 600 7200 4660 7).2
     _ _ rfl rfl rfl rfl⟩


theorem read16_cons (a b : Nat) (l : List Nat) : read16 (a :: b :: l) = a * 256 + b := rfl

theorem read32_cons (a b c d : Nat) (l : List Nat) :
    read32 (a :: b :: c :: d :: l) = a * 2 ^ 24 + b * 2 ^ 16 + c * 2 ^ 8 + d := rfl

theorem getD_cons0 (a : Nat) (l : List Nat) : (a :: l).getD 0 0 = a := rfl

theorem getD_cons1 (a b : Nat) (l : List Nat) : (a :: b :: l).getD 1 0 = b := rfl

theorem getD_cons2 (a b c : Nat) (l : List Nat) : (a :: b :: c :: l).getD 2 0 = c := rfl

theorem drop4_cons (a b c d : Nat) (l : List Nat) :
    List.drop 4 (a :: b :: c :: d :: l) = l := rfl

theorem decode_frame2 (pver pduType s1 s2 len : Nat) (body : List Nat)
    (hlen : len = 8 + body.length) (hmax : len ≤ messageMaxSize) :
    decode (pver :: pduType :: s1 :: s2 :: (be32 len ++ body))
      = decodeBody pver pduType (s1 * 256 + s2) body := by
  subst hlen
  rw [messageMaxSize] at hmax
  simp only [be32, List.cons_append, List.nil_append, decode]
  have hL : (8 + body.length) / 2 ^ 24 % 256 * 2 ^ 24 + (8 + body.length) / 2 ^ 16 % 256 * 2 ^ 16
      + (8 + body.length) / 2 ^ 8 % 256 * 2 ^ 8 + (8 + body.length) % 256 = 8 + body.length := by
    omega
  rw [hL]
  rw [if_neg (by omega)]
  rw [if_neg (by rw [messageMaxSize]; omega)]
  have ht : body.take (8 + body.length - 8) = body := by
    rw [show 8 + body.length - 8 = body.length by omega, List.take_length]
  rw [ht]
  rw [if_neg (by omega)]

theorem decode_frame (pver pduType sess len : Nat) (body : List Nat)
    (hlen : len = 8 + body.length) (hsess : sess < 2 ^ 16) (hmax : len ≤ messageMaxSize) :
    decode (pver :: pduType :: (be16 sess ++ (be32 len ++ body)))
      = decodeBody pver pduType sess body := by
  simp only [be16, List.cons_append, List.nil_append]
  rw [decode_frame2 pver pduType _ _ len body hlen hmax]
  have hS : sess / 256 % 256 * 256 + sess % 256 = sess := by omega
  rw [hS]

theorem decodeBody_routerKey (pver sess asn : Nat) (ski spki : List Nat)
    (hski : ski.length = 20) (hasn : asn < 2 ^ 32) (hspki : 4 ≤ spki.length) :
    decodeBody pver 9 sess (ski ++ (be32 asn ++ spki))
      = some (.routerKey pver (sess / 256) ski asn spki) := by
  have hlen : (ski ++ (be32 asn ++ spki)).length = 24 + spki.length := by
    simp [be32, hski]; omega
  simp only [decodeBody]
  rw [if_neg (by omega)]
  have htake : (ski ++ (be32 asn ++ spki)).take 20 = ski := List.take_left' hski
  have hdrop : (ski ++ (be32 asn ++ spki)).drop 20 = be32 asn ++ spki := List.drop_left' hski
  have hread : read32 ((ski ++ (be32 asn ++ spki)).drop 20) = asn := by
    rw [hdrop]
    simp only [be32, List.cons_append, List.nil_append, read32_cons]
    omega
  have hdrop24 : (ski ++ (be32 asn ++ spki)).drop 24 = spki := by
    rw [show (24 : Nat) = 20 + 4 from rfl, ← List.drop_drop, hdrop]
    simp only [be32, List.cons_append, List.nil_append, drop4_cons]
  rw [htake, hread, hdrop24]

theorem decodeBody_errorReport (pver sess : Nat) (copy tail : List Nat)
    (hc32 : copy.length < 2 ^ 32) (ht32 : tail.length < 2 ^ 32) :
    decodeBody pver 10 sess (be32 copy.length ++ (copy ++ (be32 tail.length ++ tail)))
      = some (.errorReport pver sess copy tail) := by
  have hlen : (be32 copy.length ++ (copy ++ (be32 tail.length ++ tail))).length
      = 8 + copy.length + tail.length := by
    simp [be32]
    omega
  simp only [decodeBody]
  rw [if_neg (by omega)]
  have hread1 : read32 (be32 copy.length ++ (copy ++ (be32 tail.length ++ tail)))
      = copy.length := by
    simp only [be32, List.cons_append, List.nil_append, read32_cons]
    omega
  rw [hread1]
  rw [if_neg (by omega)]
  have hdrop4 : (be32 copy.length ++ (copy ++ (be32 tail.length ++ tail))).drop 4
      = copy ++ (be32 tail.length ++ tail) := by
    simp only [be32, List.cons_append, List.nil_append, drop4_cons]
  have herr : ((be32 copy.length ++ (copy ++ (be32 tail.length ++ tail))).drop 4).take copy.length
      = copy := by
    rw [hdrop4]
    exact List.take_left _ _
  have hdropc4 : (be32 copy.length ++ (copy ++ (be32 tail.length ++ tail))).drop (copy.length + 4)
      = be32 tail.length ++ tail := by
    rw [Nat.add_comm copy.length 4, ← List.drop_drop, hdrop4, List.drop_left]
  have hread2 : read32 ((be32 copy.length ++ (copy ++ (be32 tail.length ++ tail))).drop
      (copy.length + 4)) = tail.length := by
    rw [hdropc4]
    simp only [be32, List.cons_append, List.nil_append, read32_cons]
    omega
  rw [herr, hread2]
  rw [if_neg (by omega)]
  have hdropc8 : (be32 copy.length ++ (copy ++ (be32 tail.length ++ tail))).drop (copy.length + 8)
      = tail := by
    rw [show copy.length + 8 = (4 + copy.length) + 4 by omega, ← List.drop_drop,
      ← Nat.add_comm copy.length 4, hdropc4]
    simp only [be32, List.cons_append, List.nil_append, drop4_cons]
  rw [hdropc8, List.take_length]

theorem drop8_cons (a b c d : Nat) (l : List Nat) :
    List.drop 8 (a :: b :: c :: d :: l) = l.drop 4 := rfl

theorem drop12_cons (a b c d : Nat) (l : List Nat) :
    List.drop 12 (a :: b :: c :: d :: l) = l.drop 8 := rfl

theorem decode_frame_nil (pver pduType sess : Nat) (hsess : sess < 2 ^ 16) :
    decode (pver :: pduType :: (be16 sess ++ be32 8))
      = decodeBody pver pduType sess [] := by
  have h := decode_frame pver pduType sess 8 [] rfl hsess (by rw [messageMaxSize]; omega)
  simpa using h

/--
C1 (amended): for every PDU type the decoder implements, every sensible
field assignment (`wfB`) and every supported version, decoding the encoding
yields the PDU back, up to the two encoder-side normalizations recorded by
`roundTripNorm`: End of Data at version 0 loses its intervals, and a
non-empty Error Report message gains its NUL terminator.
-/
theorem C1_roundtrip (p : PDU) (v : Nat) (hv : v < 3) (hc : p.inCodec = true)
    (hw : p.wfB = true) :
    decode (encodeWithVersion p v) = some (roundTripNorm p v) := by
  cases p with
  | serialNotify vv sess serial =>
    simp only [PDU.wfB, Bool.and_eq_true, decide_eq_true_eq] at hw
    obtain ⟨hs, hn⟩ := hw
    simp only [encodeWithVersion, PDU.setVersion, PDU.write, roundTripNorm,
      List.cons_append, List.nil_append, List.append_assoc]
    rw [decode_frame v 0 sess 12 (be32 serial) (by simp [be32]) hs
      (by rw [messageMaxSize]; omega)]
    simp only [decodeBody, be32, List.length_cons, List.length_nil, read32_cons, PDU.setVersion]
    norm_num [PDU.serialNotify.injEq]
    omega
  | serialQuery vv sess serial =>
    simp only [PDU.wfB, Bool.and_eq_true, decide_eq_true_eq] at hw
    obtain ⟨hs, hn⟩ := hw
    simp only [encodeWithVersion, PDU.setVersion, PDU.write, roundTripNorm,
      List.cons_append, List.nil_append, List.append_assoc]
    rw [decode_frame v 1 sess 12 (be32 serial) (by simp [be32]) hs
      (by rw [messageMaxSize]; omega)]
    simp only [decodeBody, be32, List.length_cons, List.length_nil, read32_cons, PDU.setVersion]
    norm_num [PDU.serialQuery.injEq]
    omega
  | resetQuery vv =>
    simp only [encodeWithVersion, PDU.setVersion, PDU.write, roundTripNorm,
      List.cons_append, List.nil_append, List.append_assoc]
    rw [decode_frame_nil v 2 0 (by norm_num)]
    simp [decodeBody, PDU.setVersion]
  | cacheResponse vv sess =>
    simp only [PDU.wfB, decide_eq_true_eq] at hw
    simp only [encodeWithVersion, PDU.setVersion, PDU.write, roundTripNorm,
      List.cons_append, List.nil_append, List.append_assoc]
    rw [decode_frame_nil v 3 sess hw]
    simp [decodeBody, PDU.setVersion]
  | ipv4Pfx vv flags pfxLen maxLen addr asn =>
    simp only [PDU.wfB, Bool.and_eq_true, decide_eq_true_eq] at hw
    obtain ⟨⟨⟨⟨⟨hf, hp⟩, hm⟩, haddr⟩, _hb⟩, hasn⟩ := hw
    simp only [encodeWithVersion, PDU.setVersion, PDU.write, roundTripNorm,
      List.cons_append, List.nil_append, List.append_assoc]
    rw [decode_frame v 4 0 20 (flags :: pfxLen % 256 :: maxLen :: 0 :: (addr ++ be32 asn))
      (by simp [be32, haddr]) (by norm_num) (by rw [messageMaxSize]; omega)]
    simp only [decodeBody]
    rw [if_pos (by simp [be32, haddr])]
    rw [getD_cons0, getD_cons1, getD_cons2, drop4_cons, List.take_left' haddr,
      drop8_cons, List.drop_left' haddr]
    have hr : read32 (be32 asn) = asn := by
      simp only [be32, read32_cons]
      omega
    rw [hr]
    have hpl : pfxLen % 256 = pfxLen := by omega
    rw [hpl]
  | ipv6Pfx vv flags pfxLen maxLen addr asn =>
    simp only [PDU.wfB, Bool.and_eq_true, decide_eq_true_eq] at hw
    obtain ⟨⟨⟨⟨⟨hf, hp⟩, hm⟩, haddr⟩, _hb⟩, hasn⟩ := hw
    simp only [encodeWithVersion, PDU.setVersion, PDU.write, roundTripNorm,
      List.cons_append, List.nil_append, List.append_assoc]
    rw [decode_frame v 6 0 32 (flags :: pfxLen % 256 :: maxLen :: 0 :: (addr ++ be32 asn))
      (by simp [be32, haddr]) (by norm_num) (by rw [messageMaxSize]; omega)]
    simp only [decodeBody]
    rw [if_pos (by simp [be32, haddr])]
    rw [getD_cons0, getD_cons1, getD_cons2, drop4_cons, List.take_left' haddr]
    have hd20 : (flags :: pfxLen % 256 :: maxLen :: 0 :: (addr ++ be32 asn)).drop 20
        = be32 asn := by
      rw [show (20 : Nat) = 4 + 16 from rfl, ← List.drop_drop, drop4_cons,
        List.drop_left' haddr]
    rw [hd20]
    have hr : read32 (be32 asn) = asn := by
      simp only [be32, read32_cons]
      omega
    rw [hr]
    have hpl : pfxLen % 256 = pfxLen := by omega
    rw [hpl]
  | endOfData vv sess serial rI tI eI =>
    simp only [PDU.wfB, Bool.and_eq_true, decide_eq_true_eq] at hw
    obtain ⟨⟨⟨⟨hs, hn⟩, hr32⟩, ht32⟩, he32⟩ := hw
    by_cases hv0 : v = 0
    · subst hv0
      simp only [encodeWithVersion, PDU.setVersion, PDU.write, roundTripNorm,
        eq_self_iff_true, if_true, List.cons_append, List.nil_append, List.append_assoc]
      rw [decode_frame 0 7 sess 12 (be32 serial) (by simp [be32]) hs
        (by rw [messageMaxSize]; omega)]
      simp only [decodeBody, be32, List.length_cons, List.length_nil, read32_cons]
      norm_num [PDU.endOfData.injEq]
      omega
    · simp only [encodeWithVersion, PDU.setVersion, PDU.write, roundTripNorm, if_neg hv0,
        List.cons_append, List.nil_append, List.append_assoc]
      rw [decode_frame v 7 sess 24 (be32 serial ++ (be32 rI ++ (be32 tI ++ be32 eI)))
        (by simp [be32]) hs (by rw [messageMaxSize]; omega)]
      simp only [decodeBody]
      rw [if_neg (by simp [be32]), if_pos (by simp [be32])]
      simp only [be32, List.cons_append, List.nil_append, drop12_cons, drop8_cons, drop4_cons,
        read32_cons]
      norm_num [PDU.endOfData.injEq]
      omega
  | cacheReset vv =>
    simp only [encodeWithVersion, PDU.setVersion, PDU.write, roundTripNorm,
      List.cons_append, List.nil_append, List.append_assoc]
    rw [decode_frame_nil v 8 0 (by norm_num)]
    simp [decodeBody, PDU.setVersion]
  | routerKey vv flags ski asn spki =>
    simp only [PDU.wfB, Bool.and_eq_true, decide_eq_true_eq] at hw
    obtain ⟨⟨⟨⟨⟨⟨hf, hski⟩, _hb1⟩, hasn⟩, _hb2⟩, hsp4⟩, hspM⟩ := hw
    simp only [encodeWithVersion, PDU.setVersion, PDU.write, roundTripNorm]
    rw [if_neg (by simp [hski])]
    simp only [List.cons_append, List.nil_append, List.append_assoc]
    rw [decode_frame2 v 9 flags 0 (32 + spki.length) (ski ++ (be32 asn ++ spki))
      (by simp [be32, hski]; omega) (by rw [messageMaxSize]; omega)]
    rw [decodeBody_routerKey v (flags * 256 + 0) asn ski spki hski hasn hsp4]
    have hdiv : (flags * 256 + 0) / 256 = flags := by omega
    rw [hdiv]
  | errorReport vv code pduCopy errorMsg =>
    simp only [PDU.wfB, Bool.and_eq_true, decide_eq_true_eq] at hw
    obtain ⟨⟨⟨hcode, _hb1⟩, _hb2⟩, hbound⟩ := hw
    rw [messageMaxSize] at hbound
    have hw1 : (if errorMsg ≠ [] then errorMsg ++ [0] else [])
        = (if errorMsg = [] then [] else errorMsg ++ [0]) := by
      by_cases h : errorMsg = [] <;> simp [h]
    have htl : (if errorMsg = [] then ([] : List Nat) else errorMsg ++ [0]).length
        = errorMsg.length + (if errorMsg = [] then 0 else 1) := by
      by_cases h : errorMsg = [] <;> simp [h]
    have hw2 : errorMsg.length + (if errorMsg ≠ [] then 1 else 0)
        = (if errorMsg = [] then ([] : List Nat) else errorMsg ++ [0]).length := by
      by_cases h : errorMsg = [] <;> simp [h]
    have hw3 : 12 + pduCopy.length + 4 + errorMsg.length + (if errorMsg ≠ [] then 1 else 0)
        = 16 + pduCopy.length
          + (if errorMsg = [] then ([] : List Nat) else errorMsg ++ [0]).length := by
      by_cases h : errorMsg = [] <;> simp [h] <;> omega
    simp only [encodeWithVersion, PDU.setVersion, PDU.write, roundTripNorm, hw1, hw2, hw3,
      List.cons_append, List.nil_append, List.append_assoc]
    rw [decode_frame v 10 code
      (16 + pduCopy.length + (if errorMsg = [] then ([] : List Nat) else errorMsg ++ [0]).length)
      (be32 pduCopy.length ++ (pduCopy ++
        (be32 (if errorMsg = [] then ([] : List Nat) else errorMsg ++ [0]).length
          ++ (if errorMsg = [] then ([] : List Nat) else errorMsg ++ [0]))))
      (by simp [be32]; omega) hcode (by rw [messageMaxSize, htl]; omega)]
    rw [decodeBody_errorReport v code pduCopy _ (by omega) (by rw [htl]; omega)]
  | aspa vv flags afi cnt cust prov =>
    simp [PDU.inCodec] at hc


/--
C1 counterexample: the claim as stated fails on an Error Report PDU with a
non-empty message: the encoder NUL-terminates the message, so decoding the
encoding yields the message with a trailing NUL byte, not the original PDU.
-/
theorem C1_counterexample :
    decode (encodeWithVersion (.errorReport 1 2 [] [78]) 1)
      ≠ some (.errorReport 1 2 [] [78])
    ∧ decode (encodeWithVersion (.errorReport 1 2 [] [78]) 1)
      = some (.errorReport 1 2 [] [78, 0]) := by
  decide

theorem C1_witness :
    decode (encodeWithVersion (.serialQuery 2 4660 42) 2)
      = some (roundTripNorm (.serialQuery 2 4660 42) 2) :=
  C1_roundtrip (.serialQuery 2 4660 42) 2 (by decide) (by decide) (by decide)


end RtrVerify
